import Mathlib

/-!
Shallow embedding of the `ckb-dex-contract` order-matching validator.

The embedding follows the Rust sources:
* `src/error.rs` — the flat error enum (the order validator additionally
  references the variants `OrderPriceNotZero`, `WrongDiffCapacity`,
  `InputsAndOutputsAmountNotSame` and `WrongSwapAmount`, which are included
  here as well);
* `src/entry/order.rs` — the 57-byte order codec (`parse_order_data`,
  `parse_cell_data`) and the order state validator (`validate`);
* `src/entry.rs` — the entry point `main`, the signature-path glue, and the
  older 41-byte validator `validate_order` that `main` actually calls.

Modelling conventions:
* Machine integers (`u8`/`u64`/`u128`) are `ℕ`; the code never wraps: every
  subtraction in the source is guarded by a comparison, which the embedding
  mirrors with the same guards (truncated `ℕ` subtraction coincides with the
  guarded machine subtraction).
* A Rust `as f64` / `as f32` integer-to-float cast is modelled exactly by
  `fround 53` / `fround 24`: round-to-nearest, ties-to-even at the float's
  53-bit (resp. 24-bit) significand.  Integer inputs here are below `2^128`,
  far inside `f64`'s finite range, so no overflow case arises (for `f32` the
  casts applied by the code are either unreachable from the claims or below
  the `f32` overflow threshold).
* Float arithmetic (`+`, `-`, `*`, `/`) and comparisons on already-cast
  values are idealised as exact arithmetic over `ℚ`; the source itself
  compensates for float rounding with the `0.001` tolerance.
* The ledger syscalls (`load_script`, `load_transaction`,
  `load_cell_capacity`, `load_cell_data`) are modelled as fields of a `Tx`
  snapshot; slice indexing that can panic in Rust (`&bytes[0..20]`) is
  modelled by returning `none` (panic) from the functions that perform it.
-/

/-- Error enum of `src/error.rs`, extended with the variants referenced by
`src/entry/order.rs`. -/
inductive Error where
  | IndexOutOfBound
  | ItemMissing
  | LengthNotEnough
  | Encoding
  | WrongPubkey
  | LoadPrefilledData
  | RecoverPubkey
  | WrongDataLengthOrFormat
  | WrongSUDTDiffAmount
  | WrongSUDTInputAmount
  | WrongOrderType
  | OrderPriceNotZero
  | WrongDiffCapacity
  | InputsAndOutputsAmountNotSame
  | WrongSwapAmount
  deriving DecidableEq

instance : DecidableEq (Except Error Unit) := fun a b =>
  match a, b with
  | .ok x, .ok y => isTrue (by cases x; cases y; rfl)
  | .error x, .error y =>
    if h : x = y then isTrue (by rw [h]) else isFalse (by simp [h])
  | .ok _, .error _ => isFalse (by simp)
  | .error _, .ok _ => isFalse (by simp)

/-- Exponent (base 2) of the unit in the last place used when rounding `n` to a
float with a `prec`-bit significand; found by downward search so that the
result is `0` exactly when `n < 2 ^ prec` (the exactly representable range).
The fuel `128` in `fround` covers every integer below `2 ^ (128 + prec)`. -/
def ulpExpGo (prec n : ℕ) : ℕ → ℕ
  | 0 => 0
  | e + 1 => if 2 ^ prec * 2 ^ e ≤ n then e + 1 else ulpExpGo prec n e

/-- Round `n` to the nearest multiple of `u` (a power of two), ties to the even
multiple — the IEEE 754 round-to-nearest-even rule on integers. -/
def roundEven (n u : ℕ) : ℕ :=
  if 2 * (n % u) < u then n / u * u
  else if u < 2 * (n % u) then (n / u + 1) * u
  else if n / u % 2 = 0 then n / u * u else (n / u + 1) * u

/-- Round a natural number to the nearest value representable with a `prec`-bit
significand (ties to even): the exact value of a Rust integer-to-float cast. -/
def fround (prec n : ℕ) : ℕ := roundEven n (2 ^ ulpExpGo prec n 128)

/-- Value of a Rust `as f64` cast of a natural number, as a rational. -/
def f64cast (n : ℕ) : ℚ := (fround 53 n : ℚ)

/-- Value of a Rust `as f32` cast of a natural number, as a rational. -/
def f32cast (n : ℕ) : ℚ := (fround 24 n : ℚ)

/-- Little-endian base-256 value of a byte list (`uN::from_le_bytes`). -/
def u128_from_le (bs : List ℕ) : ℕ := bs.foldr (fun b acc => b + 256 * acc) 0

/-- Little-endian base-256 digits of `n`, padded/truncated to `k` bytes
(`uN::to_le_bytes`). -/
def le_bytes : ℕ → ℕ → List ℕ
  | 0, _ => []
  | k + 1, n => n % 256 :: le_bytes k (n / 256)

/-- Input-side cell as observed through the syscalls used by the validator:
`load_cell_capacity(index, Source::Input)` and
`load_cell_data(index, Source::Input)`. -/
structure Cell where
  capacity : ℕ
  data : List ℕ
  deriving DecidableEq

/-- Output-side cell: capacity, data payload, and the lock-script arguments
read from the transaction (`output.lock().args()`). -/
structure CellOutput where
  capacity : ℕ
  data : List ℕ
  lock_args : List ℕ
  deriving DecidableEq

/-- Read-only snapshot of one validation context: the invoking script's
arguments, the transaction's inputs and outputs, and the (group-input 0)
witness `input_type` field inspected by the commented-out dispatch. -/
structure Tx where
  script_args : List ℕ
  inputs : List Cell
  outputs : List CellOutput
  witness : Option (List ℕ)
  deriving DecidableEq

/-- Locator loop shared by `validate` (order.rs) and `validate_order`
(entry.rs): scan outputs in order and return the first index whose 20-byte
lock-argument prefix equals the script-argument prefix.  `none` models the
Rust slice panic when either byte string is shorter than 20; `some none`
means the loop finished without a match; `some (some i)` is the matched
index. -/
def findOrderIndex (args : List ℕ) : List CellOutput → ℕ → Option (Option ℕ)
  | [], _ => some none
  | o :: rest, i =>
    if o.lock_args.length < 20 ∨ args.length < 20 then none
    else if o.lock_args.take 20 = args.take 20 then some (some i)
    else findOrderIndex args rest (i + 1)

namespace Order

/-- Decoded order record of `src/entry/order.rs`. -/
structure OrderData where
  sudt_amount : ℕ
  dealt_amount : ℕ
  undealt_amount : ℕ
  price : ℕ
  order_type : ℕ
  deriving DecidableEq

/-- Zero-initialised record (`_init_order_data`). -/
def init_order_data : OrderData :=
  { sudt_amount := 0, dealt_amount := 0, undealt_amount := 0, price := 0,
    order_type := 0 }

/-- Fee constant of `order.rs` (`FEE: f64 = 0.003`). -/
def FEE : ℚ := 3 / 1000

/-- Fixed-point price scale of `order.rs` (`PRICE_PARAM: f64 = 10^10`). -/
def PRICE_PARAM : ℚ := 10 ^ 10

/-- Tolerance literal `0.001` used by the float comparisons in `order.rs`. -/
def EPSILON : ℚ := 1 / 1000

/-- Embedding of `parse_order_data` (order.rs): length must be 16
(`SUDT_LEN`) or 57 (`ORDER_LEN`); a 16-byte payload leaves the
`dealt/undealt/price/order_type` buffers zero. -/
def parse_order_data (data : List ℕ) : Except Error OrderData :=
  if data.length ≠ 16 ∧ data.length ≠ 57 then .error .WrongDataLengthOrFormat
  else
    .ok
      { sudt_amount := u128_from_le (data.take 16)
        dealt_amount :=
          if data.length = 57 then u128_from_le ((data.drop 16).take 16) else 0
        undealt_amount :=
          if data.length = 57 then u128_from_le ((data.drop 32).take 16) else 0
        price :=
          if data.length = 57 then u128_from_le ((data.drop 48).take 8) else 0
        order_type :=
          if data.length = 57 then u128_from_le ((data.drop 56).take 1) else 0 }

/-- Embedding of `parse_cell_data` (order.rs), applied to the loaded cell
data: lengths 57 and 16 are decoded, every other length yields the
zero-initialised record. -/
def parse_cell_data (data : List ℕ) : Except Error OrderData :=
  if data.length = 57 then parse_order_data data
  else if data.length = 16 then parse_order_data data
  else .ok init_order_data

/-- Buy branch of `validate` (order.rs, `input_order.order_type == 0`):
capacity must not grow, sudt must not shrink, undealt must not grow; if the
output is open (`dealt != 0 && undealt != 0`) the dealt delta must dominate
and match the undealt delta; the sudt delta must equal the undealt delta
(compared after `as f64` casts); finally the fee-adjusted swap bound with
the `0.001` tolerance. -/
def buy_validate (i o : OrderData) (input_capacity output_capacity : ℕ) :
    Except Error Unit :=
  if input_capacity < output_capacity then .error .WrongDiffCapacity
  else if o.sudt_amount < i.sudt_amount ∨ i.undealt_amount < o.undealt_amount
    then .error .WrongSUDTDiffAmount
  else if (o.dealt_amount ≠ 0 ∧ o.undealt_amount ≠ 0) ∧
      o.dealt_amount < i.dealt_amount then .error .WrongSUDTDiffAmount
  else if (o.dealt_amount ≠ 0 ∧ o.undealt_amount ≠ 0) ∧
      f64cast (o.dealt_amount - i.dealt_amount) ≠
        f64cast (i.undealt_amount - o.undealt_amount) then
    .error .WrongSUDTDiffAmount
  else if f64cast (o.sudt_amount - i.sudt_amount) ≠
      f64cast (i.undealt_amount - o.undealt_amount) then
    .error .WrongSUDTDiffAmount
  else if f64cast (i.undealt_amount - o.undealt_amount) -
      f64cast (input_capacity - output_capacity) / (1 + FEE) /
        (f64cast i.price / PRICE_PARAM) > EPSILON then
    .error .WrongSwapAmount
  else .ok ()

/-- Sell branch of `validate` (order.rs, `input_order.order_type == 1`):
capacity must not shrink, sudt and undealt must not grow; the open-order
lock-step check is guarded by `dealt != 0 || undealt != 0` (a disjunction,
unlike the buy branch); the sudt delta is bounded by the fee-adjusted
undealt delta with the `0.001` tolerance; the capacity delta must reach the
fee-adjusted fair value with no tolerance. -/
def sell_validate (i o : OrderData) (input_capacity output_capacity : ℕ) :
    Except Error Unit :=
  if output_capacity < input_capacity then .error .WrongDiffCapacity
  else if i.sudt_amount < o.sudt_amount ∨ i.undealt_amount < o.undealt_amount
    then .error .WrongSUDTDiffAmount
  else if (o.dealt_amount ≠ 0 ∨ o.undealt_amount ≠ 0) ∧
      o.dealt_amount < i.dealt_amount then .error .WrongSUDTDiffAmount
  else if (o.dealt_amount ≠ 0 ∨ o.undealt_amount ≠ 0) ∧
      f64cast (o.dealt_amount - i.dealt_amount) ≠
        f64cast (i.undealt_amount - o.undealt_amount) then
    .error .WrongSUDTDiffAmount
  else if f64cast (i.sudt_amount - o.sudt_amount) -
      f64cast (i.undealt_amount - o.undealt_amount) * (1 + FEE) > EPSILON then
    .error .WrongSUDTDiffAmount
  else if f64cast (output_capacity - input_capacity) <
      f64cast (i.sudt_amount - o.sudt_amount) / (1 + FEE) /
        (f64cast i.price / PRICE_PARAM) then
    .error .WrongSwapAmount
  else .ok ()

/-- Core of `validate` (order.rs) after the located records and capacities
are in hand: the `undealt != 0` and `price != 0` preconditions followed by
the buy/sell dispatch on `order_type`. -/
def validate_core (i o : OrderData) (input_capacity output_capacity : ℕ) :
    Except Error Unit :=
  if i.undealt_amount = 0 then .error .WrongSUDTInputAmount
  else if i.price = 0 then .error .OrderPriceNotZero
  else if i.order_type = 0 then buy_validate i o input_capacity output_capacity
  else if i.order_type = 1 then
    sell_validate i o input_capacity output_capacity
  else .error .WrongOrderType

/-- Embedding of `validate` (order.rs): length precondition, locator loop,
cell loads and decodes at the matched index, then the core checks.  When no
output matches, the zero defaults flow into the core checks; `none` models
the slice panic inside the loop. -/
def validate (tx : Tx) : Option (Except Error Unit) :=
  if tx.inputs.length ≠ tx.outputs.length then
    some (.error .InputsAndOutputsAmountNotSame)
  else
    match findOrderIndex tx.script_args tx.outputs 0 with
    | none => none
    | some none => some (validate_core init_order_data init_order_data 0 0)
    | some (some i) =>
      match tx.inputs[i]?, tx.outputs[i]? with
      | some cin, some cout =>
        some
          (match parse_cell_data cin.data, parse_cell_data cout.data with
          | .error e, _ => .error e
          | .ok _, .error e => .error e
          | .ok a, .ok b => validate_core a b cin.capacity cout.capacity)
      | _, _ => some (.error .IndexOutOfBound)

/-- Modelled from the spec: the repository contains no `encode`; the spec
(§4.1, §6, §8) requires an encoder that is the exact inverse of the 57-byte
decoder, with layout `sudt_amount` LE u128 ‖ `dealt_amount` LE u128 ‖
`undealt_amount` LE u128 ‖ `price` LE u64 ‖ `order_type` u8. -/
def encode_order_data (r : OrderData) : List ℕ :=
  le_bytes 16 r.sudt_amount ++ le_bytes 16 r.dealt_amount ++
    le_bytes 16 r.undealt_amount ++ le_bytes 8 r.price ++ [r.order_type]

end Order

namespace Entry

/-- Decoded order record of `src/entry.rs` (41-byte era: no separate
`sudt_amount` field). -/
structure OrderData where
  dealt_amount : ℕ
  undealt_amount : ℕ
  price : ℕ
  order_type : ℕ
  deriving DecidableEq

/-- Zero-initialised record (`_init_order_data` in entry.rs). -/
def init_order_data : OrderData :=
  { dealt_amount := 0, undealt_amount := 0, price := 0, order_type := 0 }

/-- Fee constant of `entry.rs` (`FEE: f32 = 0.003`). -/
def FEE : ℚ := 3 / 1000

/-- Fixed-point price scale of `entry.rs` (`PRICE_PARAM: f32 = 10^10`). -/
def PRICE_PARAM : ℚ := 10 ^ 10

/-- Embedding of `parse_order_data` (entry.rs): length must be 16 or 41;
a 16-byte payload leaves the `undealt/price/order_type` buffers zero. -/
def parse_order_data (data : List ℕ) : Except Error OrderData :=
  if data.length ≠ 16 ∧ data.length ≠ 41 then .error .WrongDataLengthOrFormat
  else
    .ok
      { dealt_amount := u128_from_le (data.take 16)
        undealt_amount :=
          if data.length = 41 then u128_from_le ((data.drop 16).take 16) else 0
        price :=
          if data.length = 41 then u128_from_le ((data.drop 32).take 8) else 0
        order_type :=
          if data.length = 41 then u128_from_le ((data.drop 40).take 1) else 0 }

/-- Embedding of `parse_cell_data` (entry.rs). -/
def parse_cell_data (data : List ℕ) : Except Error OrderData :=
  if data.length = 41 then parse_order_data data
  else if data.length = 16 then parse_order_data data
  else .ok init_order_data

/-- Core checks of `validate_order` (entry.rs) after location: the
`undealt != 0` precondition and the simpler f32-based buy/sell swap
bounds. -/
def validate_core (i o : OrderData) (input_capacity output_capacity : ℕ) :
    Except Error Unit :=
  if i.undealt_amount = 0 then .error .WrongSUDTInputAmount
  else if i.order_type = 0 then
    if input_capacity < output_capacity ∨ o.dealt_amount < i.dealt_amount then
      .error .WrongSUDTDiffAmount
    else if f32cast (o.dealt_amount - i.dealt_amount) <
        f32cast (input_capacity - output_capacity) / (1 + FEE) /
          (f32cast i.price / PRICE_PARAM) then
      .error .WrongSUDTDiffAmount
    else .ok ()
  else if i.order_type = 1 then
    if output_capacity < input_capacity ∨
        i.undealt_amount < o.undealt_amount then
      .error .WrongSUDTDiffAmount
    else if f32cast (output_capacity - input_capacity) <
        f32cast (i.undealt_amount - o.undealt_amount) / (1 + FEE) /
          (f32cast i.price / PRICE_PARAM) then
      .error .WrongSUDTDiffAmount
    else .ok ()
  else .error .WrongOrderType

/-- Embedding of `validate_order` (entry.rs): locator loop (with no
input/output length precheck), cell loads and decodes at the matched index,
then the core checks. -/
def validate_order (tx : Tx) : Option (Except Error Unit) :=
  match findOrderIndex tx.script_args tx.outputs 0 with
  | none => none
  | some none => some (validate_core init_order_data init_order_data 0 0)
  | some (some i) =>
    match tx.inputs[i]?, tx.outputs[i]? with
    | some cin, some cout =>
      some
        (match parse_cell_data cin.data, parse_cell_data cout.data with
        | .error e, _ => .error e
        | .ok _, .error e => .error e
        | .ok a, .ok b => validate_core a b cin.capacity cout.capacity)
    | _, _ => some (.error .IndexOutOfBound)

/-- Embedding of `main` (entry.rs): the witness-based dispatch to
`validate_signature` is commented out in the source; `main` unconditionally
returns `validate_order()` and never reads the witness. -/
def main (tx : Tx) : Option (Except Error Unit) := validate_order tx

end Entry

/-! ## Helper lemmas -/

/-- Below the exactly representable threshold the ulp-exponent search always
returns zero. -/
theorem ulpExpGo_eq_zero {prec n : ℕ} (h : n < 2 ^ prec) :
    ∀ f, ulpExpGo prec n f = 0 := by
  intro f
  induction f with
  | zero => rfl
  | succ e ih =>
    unfold ulpExpGo
    rw [if_neg, ih]
    exact Nat.not_le.mpr
      (lt_of_lt_of_le h (Nat.le_mul_of_pos_right _ (Nat.pos_pow_of_pos e (by decide))))

/-- Integers below `2 ^ prec` are exactly representable: rounding is the
identity there. -/
theorem fround_eq_self {prec n : ℕ} (h : n < 2 ^ prec) : fround prec n = n := by
  unfold fround roundEven
  rw [ulpExpGo_eq_zero h 128]
  simp [Nat.mod_one, Nat.div_one]

/-- An `as f64` cast of an integer below `2 ^ 53` is exact. -/
theorem f64cast_eq_self {n : ℕ} (h : n < 2 ^ 53) : f64cast n = (n : ℚ) := by
  unfold f64cast
  rw [fround_eq_self h]

/-- Length of the little-endian byte expansion. -/
theorem le_bytes_length : ∀ (k n : ℕ), (le_bytes k n).length = k := by
  intro k
  induction k with
  | zero => intro n; rfl
  | succ m ih => intro n; simp [le_bytes, ih]

/-- Little-endian decoding inverts the byte expansion on values in range. -/
theorem u128_from_le_le_bytes :
    ∀ (k n : ℕ), n < 256 ^ k → u128_from_le (le_bytes k n) = n := by
  intro k
  induction k with
  | zero =>
    intro n h
    interval_cases n
    rfl
  | succ m ih =>
    intro n h
    have hdiv : n / 256 < 256 ^ m := by
      rw [Nat.div_lt_iff_lt_mul (by decide)]
      calc n < 256 ^ (m + 1) := h
        _ = 256 ^ m * 256 := by ring
    simp only [le_bytes, u128_from_le, List.foldr_cons]
    have := ih (n / 256) hdiv
    simp only [u128_from_le] at this
    rw [this]
    exact Nat.mod_add_div n 256

/-- When every output's 20-byte lock-argument prefix differs from the script
arguments, the locator loop finishes without a match (and without
panicking, given the length preconditions). -/
theorem findOrderIndex_no_match :
    ∀ (outs : List CellOutput) (args : List ℕ), 20 ≤ args.length →
      (∀ o ∈ outs, 20 ≤ o.lock_args.length) →
      (∀ o ∈ outs, o.lock_args.take 20 ≠ args.take 20) →
      ∀ i, findOrderIndex args outs i = some none := by
  intro outs
  induction outs with
  | nil => intro args _ _ _ i; rfl
  | cons o rest ih =>
    intro args hargs hlen hnm i
    have h1 := hlen o (List.mem_cons_self _ _)
    have h2 := hnm o (List.mem_cons_self _ _)
    unfold findOrderIndex
    rw [if_neg (not_or.mpr ⟨Nat.not_lt.mpr h1, Nat.not_lt.mpr hargs⟩), if_neg h2]
    exact ih args hargs (fun x hx => hlen x (List.mem_cons_of_mem _ hx))
      (fun x hx => hnm x (List.mem_cons_of_mem _ hx)) (i + 1)

/-- Under the 20-byte length preconditions the locator loop never panics. -/
theorem findOrderIndex_isSome :
    ∀ (outs : List CellOutput) (args : List ℕ), 20 ≤ args.length →
      (∀ o ∈ outs, 20 ≤ o.lock_args.length) →
      ∀ i, (findOrderIndex args outs i).isSome = true := by
  intro outs
  induction outs with
  | nil => intro args _ _ i; rfl
  | cons o rest ih =>
    intro args hargs hlen i
    have h1 := hlen o (List.mem_cons_self _ _)
    unfold findOrderIndex
    rw [if_neg (not_or.mpr ⟨Nat.not_lt.mpr h1, Nat.not_lt.mpr hargs⟩)]
    by_cases hm : o.lock_args.take 20 = args.take 20
    · rw [if_pos hm]; rfl
    · rw [if_neg hm]
      exact ih args hargs (fun x hx => hlen x (List.mem_cons_of_mem _ hx)) (i + 1)

/-- When the script arguments are at least 20 bytes long and the scan
reaches an output whose lock arguments are shorter than 20 bytes — that is,
no output before it has a matching 20-byte prefix — the locator loop
panics, wherever in the output list that output sits.  An even earlier
output that is itself short also panics, so the conclusion holds without
assuming the outputs before the short one are long enough. -/
theorem findOrderIndex_short_scanned :
    ∀ (pre : List CellOutput) (args : List ℕ) (o : CellOutput)
      (rest : List CellOutput), 20 ≤ args.length →
      o.lock_args.length < 20 →
      (∀ p ∈ pre, p.lock_args.take 20 ≠ args.take 20) →
      ∀ i, findOrderIndex args (pre ++ o :: rest) i = none := by
  intro pre
  induction pre with
  | nil =>
    intro args o rest _ hlock _ i
    simp only [List.nil_append]
    unfold findOrderIndex
    rw [if_pos (Or.inl hlock)]
  | cons p pre' ih =>
    intro args o rest hargs hlock hnm i
    simp only [List.cons_append]
    unfold findOrderIndex
    by_cases hp : p.lock_args.length < 20
    · rw [if_pos (Or.inl hp)]
    · rw [if_neg (not_or.mpr ⟨hp, Nat.not_lt.mpr hargs⟩),
        if_neg (hnm p (List.mem_cons_self _ _))]
      exact ih args o rest hargs hlock
        (fun q hq => hnm q (List.mem_cons_of_mem _ hq)) (i + 1)

/-! ## Claims -/

/-- C1 (corrected, counterexample): the entry point does not route on the
witness.  A transaction carrying a non-empty witness is still sent through
the order validator, which applies its order-state rules and reports the
order-side error `WrongSUDTInputAmount` — an error the signature path never
produces — instead of delegating to the signature-authorized-cancellation
path. -/
theorem C1_counterexample :
    Tx.witness ⟨[], [], [], some [1]⟩ = some [1] ∧
    Entry.main ⟨[], [], [], some [1]⟩ =
      some (.error .WrongSUDTInputAmount) :=
  ⟨rfl, rfl⟩

/-- C1 (amended): the entry point `main` unconditionally calls the order
validator `validate_order` (the witness dispatch is commented out in the
source), and its verdict is independent of the witness. -/
theorem C1_main_ignores_witness :
    (∀ tx : Tx, Entry.main tx = Entry.validate_order tx) ∧
    (∀ (a : List ℕ) (ins : List Cell) (outs : List CellOutput)
        (w w' : Option (List ℕ)),
      Entry.main ⟨a, ins, outs, w⟩ = Entry.main ⟨a, ins, outs, w'⟩) :=
  ⟨fun _ => rfl, fun _ _ _ _ _ => rfl⟩

/-- C3 (corrected, counterexample): on a transaction in which no output's
20-byte lock-argument prefix equals the script-argument prefix, `validate`
fails with `WrongSUDTInputAmount` — not `IndexOutOfBound` or `ItemMissing`:
the locator loop just falls through and leaves the zero-initialised input
record, which then fails the `undealt_amount != 0` precondition. -/
theorem C3_counterexample :
    Order.validate
        ⟨List.replicate 20 1, [⟨0, []⟩], [⟨0, [], List.replicate 20 2⟩],
          none⟩ = some (.error .WrongSUDTInputAmount) ∧
    Error.WrongSUDTInputAmount ≠ Error.IndexOutOfBound ∧
    Error.WrongSUDTInputAmount ≠ Error.ItemMissing :=
  ⟨rfl, by decide, by decide⟩

/-- C3 (amended): whenever the input and output counts agree, both byte
strings are long enough to scan, and no output's 20-byte lock-argument
prefix equals the script-argument prefix, `validate` fails with
`WrongSUDTInputAmount` (the zero defaults fail the `undealt != 0`
precondition). -/
theorem C3_no_match_rejects (tx : Tx)
    (hlen : tx.inputs.length = tx.outputs.length)
    (hargs : 20 ≤ tx.script_args.length)
    (hout : ∀ o ∈ tx.outputs, 20 ≤ o.lock_args.length)
    (hnm : ∀ o ∈ tx.outputs, o.lock_args.take 20 ≠ tx.script_args.take 20) :
    Order.validate tx = some (.error .WrongSUDTInputAmount) := by
  unfold Order.validate
  rw [if_neg (by simp [hlen]),
    findOrderIndex_no_match tx.outputs tx.script_args hargs hout hnm 0]
  rfl

/-- C3 witness: a concrete no-match transaction on which the amended theorem
applies. -/
theorem C3_no_match_rejects_witness :
    Order.validate
        ⟨List.replicate 20 1, [⟨7, []⟩], [⟨7, [], List.replicate 20 3⟩],
          none⟩ = some (.error .WrongSUDTInputAmount) :=
  C3_no_match_rejects _ rfl (by decide) (by decide) (by decide)

/-- C5 (confirmed): a transaction whose input and output lists have
different lengths is rejected with `InputsAndOutputsAmountNotSame`; the
verdict is reached for every such transaction irrespective of any cell
data, so no order record is decoded for it. -/
theorem C5_length_mismatch_rejects (tx : Tx)
    (h : tx.inputs.length ≠ tx.outputs.length) :
    Order.validate tx = some (.error .InputsAndOutputsAmountNotSame) := by
  unfold Order.validate
  rw [if_pos h]

/-- C5 witness: one input, zero outputs. -/
theorem C5_length_mismatch_rejects_witness :
    Order.validate ⟨[], [⟨0, []⟩], [], none⟩ =
      some (.error .InputsAndOutputsAmountNotSame) :=
  C5_length_mismatch_rejects _ (by decide)

/-- C7 (confirmed): `parse_order_data` rejects every length outside
`{16, 57}` with `WrongDataLengthOrFormat`, and decodes every 16-byte input
to the record whose `sudt_amount` is the little-endian value of the bytes
with all other fields zero. -/
theorem C7_parse_order_data_lengths (data : List ℕ) :
    (data.length ≠ 16 → data.length ≠ 57 →
      Order.parse_order_data data = .error .WrongDataLengthOrFormat) ∧
    (data.length = 16 →
      Order.parse_order_data data = .ok ⟨u128_from_le data, 0, 0, 0, 0⟩) := by
  constructor
  · intro h1 h2
    unfold Order.parse_order_data
    rw [if_pos ⟨h1, h2⟩]
  · intro h
    have ht : data.take 16 = data := by
      rw [← h]
      exact List.take_length data
    unfold Order.parse_order_data
    rw [if_neg (by simp [h])]
    simp [h, ht]

/-- C7 witness: a 1-byte input is rejected and the all-zero 16-byte input
decodes to the all-zero record. -/
theorem C7_parse_order_data_lengths_witness :
    Order.parse_order_data [0] = .error .WrongDataLengthOrFormat ∧
    Order.parse_order_data (List.replicate 16 0) =
      .ok ⟨u128_from_le (List.replicate 16 0), 0, 0, 0, 0⟩ :=
  ⟨(C7_parse_order_data_lengths [0]).1 (by decide) (by decide),
    (C7_parse_order_data_lengths (List.replicate 16 0)).2 (by decide)⟩

/-- C9 (confirmed): at the cell-reading layer, any data payload whose length
is neither 16 nor 57 — the empty payload of a fully spent order included —
is not rejected: `parse_cell_data` returns the all-zero order record. -/
theorem C9_parse_cell_data_defaults (data : List ℕ)
    (h16 : data.length ≠ 16) (h57 : data.length ≠ 57) :
    Order.parse_cell_data data = .ok ⟨0, 0, 0, 0, 0⟩ := by
  unfold Order.parse_cell_data
  rw [if_neg h57, if_neg h16]
  rfl

/-- C9 witness: the empty payload decodes to the all-zero record. -/
theorem C9_parse_cell_data_defaults_witness :
    Order.parse_cell_data [] = .ok ⟨0, 0, 0, 0, 0⟩ :=
  C9_parse_cell_data_defaults [] (by decide) (by decide)

/-- C10 (confirmed): `validate` compares only the first 20 bytes of the
script arguments and of each scanned output's lock arguments.  When both
byte strings are at least 20 bytes long for every output, `validate` always
terminates with a typed verdict (`isSome`); but when an output is scanned
with script arguments shorter than 20 bytes, the slice indexing panics
(`none`) instead of returning a typed error, and likewise when the scan
reaches an output — at any position: every output before it fails the
prefix match — whose lock arguments are shorter than 20 bytes. -/
theorem C10_slice_bounds :
    (∀ tx : Tx, 20 ≤ tx.script_args.length →
      (∀ o ∈ tx.outputs, 20 ≤ o.lock_args.length) →
      (Order.validate tx).isSome = true) ∧
    (∀ tx : Tx, tx.inputs.length = tx.outputs.length →
      tx.script_args.length < 20 → tx.outputs ≠ [] →
      Order.validate tx = none) ∧
    (∀ (tx : Tx) (pre : List CellOutput) (o : CellOutput)
        (rest : List CellOutput),
      tx.outputs = pre ++ o :: rest → tx.inputs.length = tx.outputs.length →
      20 ≤ tx.script_args.length → o.lock_args.length < 20 →
      (∀ p ∈ pre, p.lock_args.take 20 ≠ tx.script_args.take 20) →
      Order.validate tx = none) := by
  refine ⟨?_, ?_, ?_⟩
  · intro tx h1 h2
    unfold Order.validate
    by_cases hlen : tx.inputs.length ≠ tx.outputs.length
    · rw [if_pos hlen]; rfl
    · rw [if_neg hlen]
      rcases hfind : findOrderIndex tx.script_args tx.outputs 0 with _ | mi
      · exfalso
        have h3 := findOrderIndex_isSome tx.outputs tx.script_args h1 h2 0
        rw [hfind] at h3
        simp at h3
      · rcases mi with _ | i
        · rfl
        · rcases hin : tx.inputs[i]? with _ | cin <;>
            rcases hou : tx.outputs[i]? with _ | cout <;> simp [hin, hou]
  · intro tx hlen hargs hne
    obtain ⟨o, rest, hout⟩ := List.exists_cons_of_ne_nil hne
    unfold Order.validate
    rw [if_neg (by simp [hlen]), hout]
    have hfo : findOrderIndex tx.script_args (o :: rest) 0 = none := by
      unfold findOrderIndex
      rw [if_pos (Or.inr hargs)]
    rw [hfo]
  · intro tx pre o rest hout hlen hargs hlock hnm
    unfold Order.validate
    rw [if_neg (by simp [hlen]), hout,
      findOrderIndex_short_scanned pre tx.script_args o rest hargs hlock hnm
        0]

/-- C10 witness: a long-args transaction gets a typed verdict; short script
arguments panic; and a short-lock-args output scanned in second position,
after a long non-matching first output, panics. -/
theorem C10_slice_bounds_witness :
    (Order.validate ⟨List.replicate 20 0, [], [], none⟩).isSome = true ∧
    Order.validate ⟨[], [⟨0, []⟩], [⟨0, [], List.replicate 20 0⟩], none⟩ =
      none ∧
    Order.validate
        ⟨List.replicate 20 0, [⟨0, []⟩, ⟨0, []⟩],
          [⟨0, [], List.replicate 20 1⟩, ⟨0, [], []⟩], none⟩ =
      none :=
  ⟨C10_slice_bounds.1 _ (by decide) (by decide),
    C10_slice_bounds.2.1 _ rfl (by decide) (by decide),
    C10_slice_bounds.2.2 _ [⟨0, [], List.replicate 20 1⟩] ⟨0, [], []⟩ []
      rfl rfl (by decide) (by decide) (by decide)⟩

/-- C2 (corrected, counterexample): a buy-side validation can succeed even
though the token gained differs from the undealt consumed as integers: the
validator compares the two deltas only after `as f64` casts, which collapse
`2 ^ 60 + 1` and `2 ^ 60` to the same float.  Here the order gains
`2 ^ 60 + 1` tokens while consuming `2 ^ 60` undealt units, and validation
accepts. -/
theorem C2_counterexample :
    Order.validate_core ⟨0, 0, 2 ^ 60, 1, 0⟩ ⟨2 ^ 60 + 1, 0, 0, 0, 0⟩
        (10 ^ 9) 0 = .ok () ∧
    (2 ^ 60 + 1 : ℕ) - 0 ≠ 2 ^ 60 - 0 := by
  constructor
  · have h1 : fround 53 (2 ^ 60 + 1 - 0) = 2 ^ 60 := by decide
    have h2 : fround 53 (2 ^ 60 - 0) = 2 ^ 60 := by decide
    have h3 : fround 53 (10 ^ 9 - 0) = 10 ^ 9 := by decide
    have h4 : fround 53 1 = 1 := by decide
    simp only [Order.validate_core, Order.buy_validate, f64cast, h1, h2, h3, h4]
    norm_num [Order.FEE, Order.PRICE_PARAM, Order.EPSILON]
  · decide

/-- C2 (amended): whenever a buy-side validation succeeds, the `as f64`
roundings of the sudt delta and the undealt delta are equal; this gives the
exact integer equality of the claim whenever both deltas are below `2 ^ 53`
(the exactly representable range of `f64`), but not beyond it. -/
theorem C2_buy_success_deltas (i o : Order.OrderData)
    (input_capacity output_capacity : ℕ)
    (hok : Order.validate_core i o input_capacity output_capacity = .ok ())
    (ht : i.order_type = 0) :
    fround 53 (o.sudt_amount - i.sudt_amount) =
      fround 53 (i.undealt_amount - o.undealt_amount) ∧
    (o.sudt_amount - i.sudt_amount < 2 ^ 53 →
      i.undealt_amount - o.undealt_amount < 2 ^ 53 →
      o.sudt_amount - i.sudt_amount = i.undealt_amount - o.undealt_amount) := by
  have hfr : fround 53 (o.sudt_amount - i.sudt_amount) =
      fround 53 (i.undealt_amount - o.undealt_amount) := by
    unfold Order.validate_core at hok
    by_cases h1 : i.undealt_amount = 0
    · rw [if_pos h1] at hok
      exact absurd hok (by simp)
    rw [if_neg h1] at hok
    by_cases h2 : i.price = 0
    · rw [if_pos h2] at hok
      exact absurd hok (by simp)
    rw [if_neg h2, if_pos ht] at hok
    unfold Order.buy_validate at hok
    by_cases b1 : input_capacity < output_capacity
    · rw [if_pos b1] at hok
      exact absurd hok (by simp)
    rw [if_neg b1] at hok
    by_cases b2 : o.sudt_amount < i.sudt_amount ∨
        i.undealt_amount < o.undealt_amount
    · rw [if_pos b2] at hok
      exact absurd hok (by simp)
    rw [if_neg b2] at hok
    by_cases b3 : (o.dealt_amount ≠ 0 ∧ o.undealt_amount ≠ 0) ∧
        o.dealt_amount < i.dealt_amount
    · rw [if_pos b3] at hok
      exact absurd hok (by simp)
    rw [if_neg b3] at hok
    by_cases b4 : (o.dealt_amount ≠ 0 ∧ o.undealt_amount ≠ 0) ∧
        f64cast (o.dealt_amount - i.dealt_amount) ≠
          f64cast (i.undealt_amount - o.undealt_amount)
    · rw [if_pos b4] at hok
      exact absurd hok (by simp)
    rw [if_neg b4] at hok
    by_cases b5 : f64cast (o.sudt_amount - i.sudt_amount) ≠
        f64cast (i.undealt_amount - o.undealt_amount)
    · rw [if_pos b5] at hok
      exact absurd hok (by simp)
    push_neg at b5
    unfold f64cast at b5
    exact_mod_cast b5
  refine ⟨hfr, fun ha hb => ?_⟩
  rw [fround_eq_self ha, fround_eq_self hb] at hfr
  exact hfr

/-- C2 witness: a concrete accepted buy fill on which the amended theorem
applies. -/
theorem C2_buy_success_deltas_witness :
    fround 53 ((1000 : ℕ) - 0) = fround 53 (1000 - 0) ∧
    ((1000 : ℕ) - 0 < 2 ^ 53 → (1000 : ℕ) - 0 < 2 ^ 53 →
      (1000 : ℕ) - 0 = 1000 - 0) :=
  C2_buy_success_deltas ⟨0, 0, 1000, 10 ^ 10, 0⟩ ⟨1000, 0, 0, 0, 0⟩ 1003 0
    (by
      have h1 : fround 53 (1000 - 0) = 1000 := by decide
      have h2 : fround 53 (1003 - 0) = 1003 := by decide
      have h3 : fround 53 (10 ^ 10) = 10 ^ 10 := by decide
      simp only [Order.validate_core, Order.buy_validate, f64cast, h1, h2, h3]
      norm_num [Order.FEE, Order.PRICE_PARAM, Order.EPSILON])
    rfl

/-- C4 (corrected, counterexample): the sell-side capacity bound carries no
tolerance.  Here the required fee-adjusted fair value is `1004/1003` while
the capacity delta is `1`, a shortfall of `1/1003 ≤ 0.001 = ε`; the claim
says a difference at or below `ε` is accepted, but the validator rejects
with `WrongSwapAmount`. -/
theorem C4_counterexample :
    Order.validate_core ⟨1004, 0, 1002, 10 ^ 13, 1⟩ ⟨0, 0, 0, 0, 0⟩ 0 1 =
      .error .WrongSwapAmount ∧
    f64cast (1004 - 0) / (1 + Order.FEE) /
        (f64cast (10 ^ 13) / Order.PRICE_PARAM) - f64cast (1 - 0) ≤
      Order.EPSILON := by
  have h1 : fround 53 (1004 - 0) = 1004 := by decide
  have h2 : fround 53 (1002 - 0) = 1002 := by decide
  have h3 : fround 53 (1 - 0) = 1 := by decide
  have h4 : fround 53 (10 ^ 13) = 10 ^ 13 := by decide
  constructor
  · simp only [Order.validate_core, Order.sell_validate, f64cast, h1, h2, h3,
      h4]
    norm_num [Order.FEE, Order.PRICE_PARAM, Order.EPSILON]
  · simp only [f64cast, h1, h3, h4]
    norm_num [Order.FEE, Order.PRICE_PARAM, Order.EPSILON]

/-- C4 (amended): of the two fee/price bounds, only the buy-side bound uses
the `ε = 0.001` tolerance; the sell-side capacity bound is a strict
comparison with no tolerance: after the preceding checks pass, a buy
validation succeeds iff
`Δundealt − Δcapacity/(1+FEE)/order_price ≤ ε`, while a sell validation
succeeds iff `Δsudt/(1+FEE)/order_price ≤ Δcapacity` exactly. -/
theorem C4_tolerance_profile :
    (∀ (i o : Order.OrderData) (ic oc : ℕ),
      i.undealt_amount ≠ 0 → i.price ≠ 0 → i.order_type = 0 →
      oc ≤ ic → i.sudt_amount ≤ o.sudt_amount →
      o.undealt_amount ≤ i.undealt_amount → o.dealt_amount = 0 →
      f64cast (o.sudt_amount - i.sudt_amount) =
        f64cast (i.undealt_amount - o.undealt_amount) →
      (Order.validate_core i o ic oc = .ok () ↔
        f64cast (i.undealt_amount - o.undealt_amount) -
          f64cast (ic - oc) / (1 + Order.FEE) /
            (f64cast i.price / Order.PRICE_PARAM) ≤ Order.EPSILON)) ∧
    (∀ (i o : Order.OrderData) (ic oc : ℕ),
      i.undealt_amount ≠ 0 → i.price ≠ 0 → i.order_type = 1 →
      ic ≤ oc → o.sudt_amount ≤ i.sudt_amount →
      o.undealt_amount ≤ i.undealt_amount → o.dealt_amount = 0 →
      o.undealt_amount = 0 →
      f64cast (i.sudt_amount - o.sudt_amount) -
        f64cast (i.undealt_amount - o.undealt_amount) * (1 + Order.FEE) ≤
          Order.EPSILON →
      (Order.validate_core i o ic oc = .ok () ↔
        f64cast (i.sudt_amount - o.sudt_amount) / (1 + Order.FEE) /
          (f64cast i.price / Order.PRICE_PARAM) ≤ f64cast (oc - ic))) := by
  constructor
  · intro i o ic oc hu hp ht hcap hs hun hod heq
    unfold Order.validate_core Order.buy_validate
    rw [if_neg hu, if_neg hp, if_pos ht, if_neg (Nat.not_lt.mpr hcap),
      if_neg (not_or.mpr ⟨Nat.not_lt.mpr hs, Nat.not_lt.mpr hun⟩),
      if_neg (by simp [hod]), if_neg (by simp [hod]), if_neg (by simp [heq])]
    by_cases hx : f64cast (i.undealt_amount - o.undealt_amount) -
        f64cast (ic - oc) / (1 + Order.FEE) /
          (f64cast i.price / Order.PRICE_PARAM) > Order.EPSILON
    · rw [if_pos hx]
      exact iff_of_false (by simp) (not_le.mpr hx)
    · rw [if_neg hx]
      exact iff_of_true rfl (not_lt.mp hx)
  · intro i o ic oc hu hp ht hcap hs hun hod hou htok
    unfold Order.validate_core Order.sell_validate
    rw [if_neg hu, if_neg hp, if_neg (by simp [ht]), if_pos ht,
      if_neg (Nat.not_lt.mpr hcap),
      if_neg (not_or.mpr ⟨Nat.not_lt.mpr hs, Nat.not_lt.mpr hun⟩),
      if_neg (by simp [hod, hou]), if_neg (by simp [hod, hou]),
      if_neg (not_lt.mpr htok)]
    by_cases hx : f64cast (oc - ic) <
        f64cast (i.sudt_amount - o.sudt_amount) / (1 + Order.FEE) /
          (f64cast i.price / Order.PRICE_PARAM)
    · rw [if_pos hx]
      exact iff_of_false (by simp) (not_le.mpr hx)
    · rw [if_neg hx]
      exact iff_of_true rfl (not_lt.mp hx)

/-- C4 witness: a concrete sell fill whose capacity delta meets the strict
bound exactly is accepted via the amended characterisation. -/
theorem C4_tolerance_profile_witness :
    Order.validate_core ⟨1003, 0, 1000, 10 ^ 10, 1⟩ ⟨0, 0, 0, 0, 0⟩ 0 1000 =
      .ok () := by
  have h1 : fround 53 (1003 - 0) = 1003 := by decide
  have h2 : fround 53 (1000 - 0) = 1000 := by decide
  have h3 : fround 53 (10 ^ 10) = 10 ^ 10 := by decide
  exact (C4_tolerance_profile.2 ⟨1003, 0, 1000, 10 ^ 10, 1⟩ ⟨0, 0, 0, 0, 0⟩
      0 1000 (by decide) (by decide) rfl (by decide) (by decide) (by decide)
      rfl rfl
      (by
        simp only [f64cast, h1, h2]
        norm_num [Order.FEE, Order.EPSILON])).mpr
    (by
      simp only [f64cast, h1, h2, h3]
      norm_num [Order.FEE, Order.PRICE_PARAM])

/-- C6 (corrected, counterexample): the sell branch guards the lock-step
check with a disjunction, not with the buy branch's conjunction.  Here the
output record has `dealt_amount = 5 ≠ 0` but `undealt_amount = 0`, so it is
not an open order under the claim's condition and the lock-step check
should be skipped, yet the validator performs it and rejects with
`WrongSUDTDiffAmount`; zeroing the output's `dealt_amount` (so that both
fields are zero) makes the same transaction pass. -/
theorem C6_counterexample :
    Order.validate_core ⟨10, 0, 10, 10 ^ 10, 1⟩ ⟨0, 5, 0, 0, 0⟩ 0 10 =
      .error .WrongSUDTDiffAmount ∧
    ¬((5 : ℕ) ≠ 0 ∧ (0 : ℕ) ≠ 0) ∧
    Order.validate_core ⟨10, 0, 10, 10 ^ 10, 1⟩ ⟨0, 0, 0, 0, 0⟩ 0 10 =
      .ok () := by
  have h1 : fround 53 (10 - 0) = 10 := by decide
  have h2 : fround 53 (5 - 0) = 5 := by decide
  have h3 : fround 53 (10 ^ 10) = 10 ^ 10 := by decide
  refine ⟨?_, by decide, ?_⟩
  · simp only [Order.validate_core, Order.sell_validate, f64cast, h1, h2, h3]
    norm_num [Order.FEE, Order.PRICE_PARAM, Order.EPSILON]
  · simp only [Order.validate_core, Order.sell_validate, f64cast, h1, h3]
    norm_num [Order.FEE, Order.PRICE_PARAM, Order.EPSILON]

/-- C6 (amended): in the sell branch the lock-step check is enforced exactly
when `output.dealt_amount ≠ 0 ∨ output.undealt_amount ≠ 0` (a disjunction;
the buy branch uses the conjunction): under that guard a dealt decrease, or
a dealt delta whose `f64` rounding differs from the undealt delta's,
rejects with `WrongSUDTDiffAmount`; only when both fields are zero is the
check skipped, and then the verdict is independent of the input's
`dealt_amount`. -/
theorem C6_sell_lockstep (i o : Order.OrderData) (ic oc : ℕ)
    (hu : i.undealt_amount ≠ 0) (hp : i.price ≠ 0) (ht : i.order_type = 1)
    (hcap : ic ≤ oc) (hs : o.sudt_amount ≤ i.sudt_amount)
    (hun : o.undealt_amount ≤ i.undealt_amount) :
    ((o.dealt_amount ≠ 0 ∨ o.undealt_amount ≠ 0) →
      o.dealt_amount < i.dealt_amount →
      Order.validate_core i o ic oc = .error .WrongSUDTDiffAmount) ∧
    ((o.dealt_amount ≠ 0 ∨ o.undealt_amount ≠ 0) →
      i.dealt_amount ≤ o.dealt_amount →
      f64cast (o.dealt_amount - i.dealt_amount) ≠
        f64cast (i.undealt_amount - o.undealt_amount) →
      Order.validate_core i o ic oc = .error .WrongSUDTDiffAmount) ∧
    (o.dealt_amount = 0 → o.undealt_amount = 0 → ∀ d : ℕ,
      Order.validate_core
          ⟨i.sudt_amount, d, i.undealt_amount, i.price, i.order_type⟩ o ic
          oc =
        Order.validate_core i o ic oc) := by
  refine ⟨?_, ?_, ?_⟩
  · intro hopen hlt
    unfold Order.validate_core Order.sell_validate
    rw [if_neg hu, if_neg hp, if_neg (by simp [ht]), if_pos ht,
      if_neg (Nat.not_lt.mpr hcap),
      if_neg (not_or.mpr ⟨Nat.not_lt.mpr hs, Nat.not_lt.mpr hun⟩),
      if_pos ⟨hopen, hlt⟩]
  · intro hopen hge hne
    unfold Order.validate_core Order.sell_validate
    rw [if_neg hu, if_neg hp, if_neg (by simp [ht]), if_pos ht,
      if_neg (Nat.not_lt.mpr hcap),
      if_neg (not_or.mpr ⟨Nat.not_lt.mpr hs, Nat.not_lt.mpr hun⟩),
      if_neg (fun hc => absurd hc.2 (Nat.not_lt.mpr hge)),
      if_pos ⟨hopen, hne⟩]
  · intro hd0 hu0 d
    have key : ∀ x : Order.OrderData, x.undealt_amount ≠ 0 → x.price ≠ 0 →
        x.order_type = 1 →
        Order.validate_core x o ic oc = Order.sell_validate x o ic oc := by
      intro x h1 h2 h3
      unfold Order.validate_core
      rw [if_neg h1, if_neg h2, if_neg (by simp [h3]), if_pos h3]
    rw [key ⟨i.sudt_amount, d, i.undealt_amount, i.price, i.order_type⟩ hu hp
        ht,
      key i hu hp ht]
    unfold Order.sell_validate
    simp [hd0, hu0]

/-- C6 witness: the guarded lock-step rejection of the amended theorem at a
concrete sell fill with `dealt ≠ 0`, `undealt = 0`. -/
theorem C6_sell_lockstep_witness :
    Order.validate_core ⟨10, 3, 10, 10 ^ 10, 1⟩ ⟨0, 5, 0, 0, 0⟩ 0 10 =
      .error .WrongSUDTDiffAmount := by
  have h2 : fround 53 (5 - 3) = 2 := by decide
  have h1 : fround 53 (10 - 0) = 10 := by decide
  exact (C6_sell_lockstep ⟨10, 3, 10, 10 ^ 10, 1⟩ ⟨0, 5, 0, 0, 0⟩ 0 10
      (by decide) (by decide) rfl (by decide) (by decide) (by decide)).2.1
    (Or.inl (by decide)) (by decide)
    (by
      simp only [f64cast, h1, h2]
      norm_num)

/-- Taking exactly the length of the left part of an append returns it. -/
theorem take_length_append (a b : List ℕ) (k : ℕ) (h : a.length = k) :
    (a ++ b).take k = a := by
  rw [← h]
  exact List.take_left _ _

/-- Dropping exactly the length of the left part of an append removes it. -/
theorem drop_length_append (a b : List ℕ) (k : ℕ) (h : a.length = k) :
    (a ++ b).drop k = b := by
  rw [← h]
  exact List.drop_left _ _

/-- The 57-byte decoder splits a five-chunk payload back into its chunks. -/
theorem parse_order_data_append (a b c d e : List ℕ)
    (ha : a.length = 16) (hb : b.length = 16) (hc : c.length = 16)
    (hd : d.length = 8) (he : e.length = 1) :
    Order.parse_order_data (a ++ (b ++ (c ++ (d ++ e)))) =
      .ok ⟨u128_from_le a, u128_from_le b, u128_from_le c, u128_from_le d,
        u128_from_le e⟩ := by
  have hlen : (a ++ (b ++ (c ++ (d ++ e)))).length = 57 := by
    simp [ha, hb, hc, hd, he]
  have hd16 : (a ++ (b ++ (c ++ (d ++ e)))).drop 16 = b ++ (c ++ (d ++ e)) :=
    drop_length_append _ _ _ ha
  have hd32 : (a ++ (b ++ (c ++ (d ++ e)))).drop 32 = c ++ (d ++ e) := by
    have h1 : (a ++ (b ++ (c ++ (d ++ e)))).drop 32 =
        ((a ++ (b ++ (c ++ (d ++ e)))).drop 16).drop 16 := by
      rw [List.drop_drop]
    rw [h1, hd16]
    exact drop_length_append _ _ _ hb
  have hd48 : (a ++ (b ++ (c ++ (d ++ e)))).drop 48 = d ++ e := by
    have h1 : (a ++ (b ++ (c ++ (d ++ e)))).drop 48 =
        ((a ++ (b ++ (c ++ (d ++ e)))).drop 32).drop 16 := by
      rw [List.drop_drop]
    rw [h1, hd32]
    exact drop_length_append _ _ _ hc
  have hd56 : (a ++ (b ++ (c ++ (d ++ e)))).drop 56 = e := by
    have h1 : (a ++ (b ++ (c ++ (d ++ e)))).drop 56 =
        ((a ++ (b ++ (c ++ (d ++ e)))).drop 48).drop 8 := by
      rw [List.drop_drop]
    rw [h1, hd48]
    exact drop_length_append _ _ _ hd
  have ht16 : (a ++ (b ++ (c ++ (d ++ e)))).take 16 = a :=
    take_length_append _ _ _ ha
  have f2 : ((a ++ (b ++ (c ++ (d ++ e)))).drop 16).take 16 = b := by
    rw [hd16]
    exact take_length_append _ _ _ hb
  have f3 : ((a ++ (b ++ (c ++ (d ++ e)))).drop 32).take 16 = c := by
    rw [hd32]
    exact take_length_append _ _ _ hc
  have f4 : ((a ++ (b ++ (c ++ (d ++ e)))).drop 48).take 8 = d := by
    rw [hd48]
    exact take_length_append _ _ _ hd
  have f5 : ((a ++ (b ++ (c ++ (d ++ e)))).drop 56).take 1 = e := by
    rw [hd56, ← he, List.take_length]
  unfold Order.parse_order_data
  rw [if_neg (by simp [hlen])]
  simp [hlen, ht16, f2, f3, f4, f5]

/-- C8 (confirmed, with the encoder modelled from the spec): decoding the
57-byte encoding of any valid order record returns that record. -/
theorem C8_round_trip (r : Order.OrderData)
    (hs : r.sudt_amount < 2 ^ 128) (hd : r.dealt_amount < 2 ^ 128)
    (hu : r.undealt_amount < 2 ^ 128) (hp : r.price < 2 ^ 64)
    (ht : r.order_type < 2 ^ 8) :
    Order.parse_order_data (Order.encode_order_data r) = .ok r := by
  obtain ⟨s, d, u, p, t⟩ := r
  have hE : Order.encode_order_data ⟨s, d, u, p, t⟩ =
      le_bytes 16 s ++
        (le_bytes 16 d ++ (le_bytes 16 u ++ (le_bytes 8 p ++ [t]))) := by
    simp [Order.encode_order_data, List.append_assoc]
  have h256 : (256 : ℕ) ^ 16 = 2 ^ 128 := by norm_num
  have h256p : (256 : ℕ) ^ 8 = 2 ^ 64 := by norm_num
  have g1 : u128_from_le (le_bytes 16 s) = s :=
    u128_from_le_le_bytes 16 s (by rw [h256]; exact hs)
  have g2 : u128_from_le (le_bytes 16 d) = d :=
    u128_from_le_le_bytes 16 d (by rw [h256]; exact hd)
  have g3 : u128_from_le (le_bytes 16 u) = u :=
    u128_from_le_le_bytes 16 u (by rw [h256]; exact hu)
  have g4 : u128_from_le (le_bytes 8 p) = p :=
    u128_from_le_le_bytes 8 p (by rw [h256p]; exact hp)
  rw [hE, parse_order_data_append (le_bytes 16 s) (le_bytes 16 d)
      (le_bytes 16 u) (le_bytes 8 p) [t] (le_bytes_length 16 s)
      (le_bytes_length 16 d) (le_bytes_length 16 u) (le_bytes_length 8 p)
      rfl,
    g1, g2, g3, g4]
  simp [u128_from_le]

/-- C8 witness: the round trip at a concrete record. -/
theorem C8_round_trip_witness :
    Order.parse_order_data (Order.encode_order_data ⟨1, 2, 3, 4, 5⟩) =
      .ok ⟨1, 2, 3, 4, 5⟩ :=
  C8_round_trip ⟨1, 2, 3, 4, 5⟩ (by decide) (by decide) (by decide)
    (by decide) (by decide)
